import Mathlib

/-!
Shallow embedding of the statement-building, schema-validation and batch-execution
core of the Neon n8n community node (`src/nodes/Neon`), together with theorems
settling the specification claims about it.

JavaScript objects that the node passes around are modelled as follows:
strings stay `String`; a possibly-absent object field becomes `Option`;
a JS value that may be `null`, a string, a number or a boolean becomes `Val`;
an item (mapping of column names to values) becomes an association list in
insertion order, which is the order `Object.keys` iterates; a thrown
`NodeOperationError` becomes an `Except` error value.
-/

/-- JS data values as they flow through the node: `null`, strings, numbers, booleans. -/
inductive Val where
  | null : Val
  | str : String → Val
  | num : Int → Val
  | bool : Bool → Val
deriving DecidableEq, Repr

/-- One entry of `whereParams.values` in the UI filter collection: a column name, a
condition operator string, and a value (`src/nodes/Neon/helpers/utils.ts`,
`buildWhereClause`, destructured as `{ column, condition: operator, value }`). -/
structure FilterCondition where
  column : String
  condition : String
  value : Val
deriving DecidableEq, Repr

/-- The `whereParams` object handed to `buildWhereClause`: a possibly-absent `values`
list and a possibly-absent `combineConditions` string. -/
structure WhereParams where
  values : Option (List FilterCondition)
  combineConditions : Option String
deriving DecidableEq, Repr

/-- One entry of `sortParams.values`: column plus direction string; an absent or
empty direction is modelled as `""` (both are falsy in JS). -/
structure SortRule where
  column : String
  direction : String
deriving DecidableEq, Repr

/-- The `sortParams` object handed to `buildSortClause`. -/
structure SortParams where
  values : Option (List SortRule)
deriving DecidableEq, Repr

/-- Result of `buildWhereClause`: the source returns `{ clause, values }`. -/
structure WhereResult where
  clause : String
  values : List Val
deriving DecidableEq, Repr

/-- Operator tokens of the seven value-carrying cases of the `switch` in
`buildWhereClause` (`utils.ts` lines 116-151): the emitted SQL operator for each
recognized operator string, `none` for anything else. The case `equal` emits `=`;
the remaining six emit the operator string itself. -/
def opToken : String → Option String
  | "equal" => some ("=")
  | "!=" => some ("!=")
  | "LIKE" => some ("LIKE")
  | ">" => some (">")
  | "<" => some ("<")
  | ">=" => some (">=")
  | "<=" => some ("<=")
  | _ => none

/-- The two null-check operator strings of the `switch` in `buildWhereClause`
(`utils.ts` lines 152-157), which emit no value parameter. -/
def isNullCheckOp (s : String) : Bool :=
  s == "IS NULL" || s == "IS NOT NULL"

/-- JS `Array.prototype.join(sep)`. -/
def joinSep (sep : String) : List String → String
  | [] => ""
  | [x] => x
  | x :: y :: rest => x ++ sep ++ joinSep sep (y :: rest)

/-- The `for (const condition of whereParams.values)` loop of `buildWhereClause`
(`utils.ts` lines 111-159): builds the condition strings and the pushed value list,
threading `paramIndex` (which starts at 1 and increments only for value-carrying
operators). A condition with an empty column is skipped (`if (!column) continue`);
a condition whose operator matches no `case` falls through the `switch` and is
skipped as well. -/
def whereLoop : List FilterCondition → Nat → List String × List Val
  | [], _ => ([], [])
  | c :: rest, i =>
    if c.column = "" then whereLoop rest i
    else
      match opToken c.condition with
      | some op =>
        let r := whereLoop rest (i + 1)
        ((c.column ++ " " ++ op ++ " $" ++ toString i) :: r.1, c.value :: r.2)
      | none =>
        if isNullCheckOp c.condition then
          let r := whereLoop rest i
          ((c.column ++ " " ++ c.condition) :: r.1, r.2)
        else whereLoop rest i

/-- The combinator selection `whereParams.combineConditions || 'AND'` of
`buildWhereClause` (`utils.ts` line 165): an absent or falsy (empty) string
defaults to `AND`. -/
def combineOperatorOf : Option String → String
  | none => "AND"
  | some s => if s = "" then "AND" else s

/-- Embedding of `buildWhereClause(whereParams, schema, table)` from
`src/nodes/Neon/helpers/utils.ts` lines 102-169. Returns `{ clause: '', values: [] }`
when `whereParams` is absent, its `values` list is absent or empty, or every
condition is skipped; otherwise joins the condition strings with the configured
combinator (default `AND`, falsy values included) and prefixes `WHERE `. The
`schema` and `table` arguments are accepted and unused, exactly as in the source. -/
def buildWhereClause (whereParams : Option WhereParams) (schema table : String) :
    WhereResult :=
  match whereParams with
  | none => ⟨"", []⟩
  | some wp =>
    match wp.values with
    | none => ⟨"", []⟩
    | some cs =>
      if cs = [] then ⟨"", []⟩
      else
        let r := whereLoop cs 1
        if r.1 = [] then ⟨"", []⟩
        else
          ⟨"WHERE " ++ joinSep (" " ++ combineOperatorOf wp.combineConditions ++ " ") r.1,
            r.2⟩

/-- The `for (const sort of sortParams.values)` loop of `buildSortClause`
(`utils.ts` lines 182-188): skips entries with an empty column and emits
`column direction`, where a falsy direction defaults to `ASC`
(`direction || 'ASC'`). -/
def sortLoop : List SortRule → List String
  | [] => []
  | r :: rest =>
    if r.column = "" then sortLoop rest
    else (r.column ++ " " ++ (if r.direction = "" then "ASC" else r.direction)) :: sortLoop rest

/-- Embedding of `buildSortClause(sortParams)` from `utils.ts` lines 175-195. -/
def buildSortClause (sortParams : Option SortParams) : String :=
  match sortParams with
  | none => ""
  | some sp =>
    match sp.values with
    | none => ""
    | some rules =>
      if rules = [] then ""
      else
        let orders := sortLoop rules
        if orders = [] then ""
        else "ORDER BY " ++ joinSep (", ") orders

/-- Embedding of `buildSelectColumns(outputColumns)` from `utils.ts` lines 201-207. -/
def buildSelectColumns (outputColumns : List String) : String :=
  if outputColumns = [] then "*" else joinSep (", ") outputColumns

/-- Embedding of the SELECT statement assembly of
`src/nodes/Neon/actions/operations/select.operation.ts` lines 60-70 (first
document): the schema and table are interpolated directly into the text as
`SELECT cols FROM schema.table`, the WHERE and ORDER BY clauses are appended when
non-empty, and only the WHERE values are passed as parameters. -/
def buildSelectQuery (schema table : String) (outputColumns : List String)
    (whereParams : Option WhereParams) (sortParams : Option SortParams) :
    String × List Val :=
  let columns := buildSelectColumns outputColumns
  let wr := buildWhereClause whereParams schema table
  let sortClause := buildSortClause sortParams
  let q0 := "SELECT " ++ columns ++ " FROM " ++ schema ++ "." ++ table
  let q1 := if wr.clause = "" then q0 else q0 ++ " " ++ wr.clause
  let q2 := if sortClause = "" then q1 else q1 ++ " " ++ sortClause
  (q2, wr.values)

/-- The fields of `ColumnInfo` consumed by `checkItemAgainstSchema`
(`src/nodes/Neon/helpers/interface`): `column_name`, `data_type`, `is_nullable`
(the strings `YES` and `NO`, per `information_schema.columns`). -/
structure ColumnInfo where
  column_name : String
  data_type : String
  is_nullable : String
deriving DecidableEq, Repr

/-- The two `NodeOperationError`s thrown by `checkItemAgainstSchema`, each tagged
with the offending key and the item index. -/
inductive CheckError where
  | unknownColumn : String → Nat → CheckError
  | notNullable : String → Nat → CheckError
deriving DecidableEq, Repr

/-- The `schema` lookup object built by the `reduce` in `checkItemAgainstSchema`
(`utils.ts` lines 411-414): keyed by `column_name`, later entries overwriting
earlier ones, hence the last matching column wins. -/
def schemaLookup (columnsInfo : List ColumnInfo) (key : String) : Option ColumnInfo :=
  columnsInfo.reverse.find? (fun c => c.column_name == key)

/-- The `for (const key of keys)` loop of `checkItemAgainstSchema` (`utils.ts`
lines 418-429): the first offending key decides the error; a key absent from the
schema yields the unknown-column error, a strictly-null value for a non-nullable
column yields the not-nullable error. -/
def checkKeys (columnsInfo : List ColumnInfo) (index : Nat) :
    List (String × Val) → Option CheckError
  | [] => none
  | (k, v) :: rest =>
    match schemaLookup columnsInfo k with
    | none => some (CheckError.unknownColumn k index)
    | some c =>
      if v = Val.null ∧ ¬(c.is_nullable = "YES") then
        some (CheckError.notNullable k index)
      else checkKeys columnsInfo index rest

/-- Embedding of `checkItemAgainstSchema(node, item, columnsInfo, index)` from
`src/nodes/Neon/helpers/utils.ts` lines 404-432 (the `node` argument, used only to
construct the thrown error, is dropped). An empty `columnsInfo` returns the item
unchanged; otherwise the keys are checked in insertion order and the item is
returned when no key offends. -/
def checkItemAgainstSchema (item : List (String × Val)) (columnsInfo : List ColumnInfo)
    (index : Nat) : Except CheckError (List (String × Val)) :=
  if columnsInfo = [] then Except.ok item
  else
    match checkKeys columnsInfo index item with
    | some e => Except.error e
    | none => Except.ok item

/-- One entry of the `values` array built by the insert path: the schema and table
strings pushed first, then the whole validated item object pushed by
`values.push(checkItemAgainstSchema(...))`. -/
inductive InsertParam where
  | str : String → InsertParam
  | obj : List (String × Val) → InsertParam
deriving DecidableEq, Repr

/-- Embedding of the per-item query construction of
`src/nodes/Neon/actions/operations/insert.operation.ts` lines 127-161: the base
text `INSERT INTO $1:name.$2:name($3:name) VALUES($3:csv)` (with the
`ON CONFLICT DO NOTHING` suffix concatenated directly when `skipOnConflict` is
set), `values = [schema, table]`, then the validated item is pushed onto `values`;
if the item has no keys the text is replaced by the DEFAULT VALUES form, otherwise
` RETURNING *` is appended. -/
def buildInsertQuery (schema table : String) (item : List (String × Val))
    (tableSchema : List ColumnInfo) (skipOnConflict : Bool) (index : Nat) :
    Except CheckError (String × List InsertParam) := do
  let onConflict := if skipOnConflict then "ON CONFLICT DO NOTHING" else ""
  let query := "INSERT INTO $1:name.$2:name($3:name) VALUES($3:csv)" ++ onConflict
  let checked ← checkItemAgainstSchema item tableSchema index
  let values := [InsertParam.str schema, InsertParam.str table, InsertParam.obj checked]
  if item = [] then
    return ("INSERT INTO $1:name.$2:name DEFAULT VALUES RETURNING *", values)
  else
    return (query ++ " RETURNING *", values)

/-- Embedding of `shouldContinueOnFail(executionMode)` from `utils.ts`
lines 272-279. -/
def shouldContinueOnFail (executionMode : String) : Bool :=
  if executionMode = "independently" then true
  else if executionMode = "transaction" then false
  else if executionMode = "single" then false
  else false

/-- One built statement handed to the execution loop, abstracted over what it does
to the database: given the committed state (a list of rows, each a `Nat`), it
either succeeds with the new committed state and its result rows, or fails with an
error message, leaving the state untouched (the driver rolls a failed statement
back). -/
structure Stmt where
  run : List Nat → Except String (List Nat × List Nat)

/-- `db.any(query, values)`: execute one statement as its own autocommit unit. -/
def dbAny (s : Stmt) (db : List Nat) : Except String (List Nat × List Nat) :=
  s.run db

/-- `db.tx(fn)`: run the callback against the current state; commit the state it
produces on success, restore the entry state and propagate the error on failure.
The execution loops of the operations call it with a callback containing exactly
one `t.any(query, values)`, so each statement gets its own transaction. -/
def dbTx (f : List Nat → Except String (List Nat × List Nat)) (db : List Nat) :
    Except String (List Nat × List Nat) :=
  match f db with
  | Except.ok r => Except.ok r
  | Except.error e => Except.error e

/-- The `for (let i = 0; i < queries.length; i++)` execution loop shared by
`insert.operation.ts` lines 164-198 and `executeQuery.operation.ts` lines 133-161:
`transaction` mode wraps each single statement in its own `db.tx`; `independently`
mode catches a failure, records `result = []` and continues when
`shouldContinueOnFail` says so; any other mode is autocommit and aborts on the first
failure. On abort the error is propagated with the index of the failing statement
and the committed state at that moment; otherwise the per-statement result lists
are returned in input order together with the final committed state. -/
def runBatchGo (mode : String) :
    List Stmt → List Nat → Nat → Except (Nat × String × List Nat) (List (List Nat) × List Nat)
  | [], db, _ => Except.ok ([], db)
  | s :: rest, db, i =>
    if mode = "transaction" then
      match dbTx (fun d => dbAny s d) db with
      | Except.ok (dbNew, rows) =>
        match runBatchGo mode rest dbNew (i + 1) with
        | Except.ok (os, dbf) => Except.ok (rows :: os, dbf)
        | Except.error e => Except.error e
      | Except.error e => Except.error (i, e, db)
    else if mode = "independently" then
      match dbAny s db with
      | Except.ok (dbNew, rows) =>
        match runBatchGo mode rest dbNew (i + 1) with
        | Except.ok (os, dbf) => Except.ok (rows :: os, dbf)
        | Except.error e => Except.error e
      | Except.error e =>
        if shouldContinueOnFail mode then
          match runBatchGo mode rest db (i + 1) with
          | Except.ok (os, dbf) => Except.ok (([] : List Nat) :: os, dbf)
          | Except.error e2 => Except.error e2
        else Except.error (i, e, db)
    else
      match dbAny s db with
      | Except.ok (dbNew, rows) =>
        match runBatchGo mode rest dbNew (i + 1) with
        | Except.ok (os, dbf) => Except.ok (rows :: os, dbf)
        | Except.error e => Except.error e
      | Except.error e => Except.error (i, e, db)

/-- Run a whole batch under the given execution mode, starting at statement 0. -/
def runBatch (mode : String) (stmts : List Stmt) (db : List Nat) :
    Except (Nat × String × List Nat) (List (List Nat) × List Nat) :=
  runBatchGo mode stmts db 0

/-- A statement that inserts the row `n` and returns it. -/
def stmtInsert (n : Nat) : Stmt :=
  ⟨fun db => Except.ok (db ++ [n], [n])⟩

/-- A statement that always fails with the given message. -/
def stmtFail (msg : String) : Stmt :=
  ⟨fun _ => Except.error msg⟩

/-- Replace the first occurrence of `pat` in a character list, as JS
`String.prototype.replace` does when the pattern is a plain string (the
replacement strings used here contain no capture-group directives, so they are
inserted verbatim). -/
def listReplaceFirst : List Char → List Char → List Char → List Char
  | [], _, _ => []
  | c :: hay, pat, repl =>
    if pat.isPrefixOf (c :: hay) then repl ++ (c :: hay).drop pat.length
    else c :: listReplaceFirst hay pat repl

/-- String version of `listReplaceFirst`. -/
def replaceFirst (s pat repl : String) : String :=
  ⟨listReplaceFirst s.data pat.data repl.data⟩

/-- Try to complete a match of the regex `'\$[0-9]+'` whose opening quote has just
been consumed: the remaining characters must start with `$`, one or more digits,
and a closing quote. On success returns the whole matched token (quotes included)
and the rest of the input. -/
def tryLit (cs : List Char) : Option (List Char × List Char) :=
  match cs with
  | '$' :: rest =>
    let ds := rest.takeWhile Char.isDigit
    let rest1 := rest.dropWhile Char.isDigit
    if ds = [] then none
    else
      match rest1 with
      | '\'' :: rest2 => some ('\'' :: '$' :: (ds ++ ['\'']), rest2)
      | _ => none
  | _ => none

/-- Fuelled scanner for `query.match(/'\$[0-9]+'/g)`: left-to-right,
non-overlapping matches, resuming after each match, advancing one character after
a failed attempt. Each recursive call consumes at least one character, so fuel
equal to the input length makes the scan total without changing its result. -/
def scanLitsAux : Nat → List Char → List (List Char)
  | 0, _ => []
  | _, [] => []
  | fuel + 1, c :: rest =>
    if c = '\'' then
      match tryLit rest with
      | some (tok, rest2) => tok :: scanLitsAux fuel rest2
      | none => scanLitsAux fuel rest
    else scanLitsAux fuel rest

/-- All matches of `/'\$[0-9]+'/g` in the statement text, in order. -/
def scanLits (cs : List Char) : List (List Char) :=
  scanLitsAux cs.length cs

/-- `literal.replace(/'/g, '')`: strip every quote from the matched token. -/
def stripQuotes (cs : List Char) : String :=
  ⟨cs.filter (fun c => ¬(c = '\''))⟩

/-- The `for (const literal of literals)` loop of `executeQuery.operation.ts`
lines 120-125: each matched token is replaced (first occurrence) in the statement
text by a fresh `$n` placeholder, its quote-stripped text is pushed onto `values`,
and the placeholder counter advances. -/
def rewriteLoop : List (List Char) → String → List String → Nat → String × List String
  | [], q, vs, _ => (q, vs)
  | lit :: rest, q, vs, idx =>
    rewriteLoop rest
      (replaceFirst q ⟨lit⟩ ("$" ++ toString idx))
      (vs ++ [stripQuotes lit])
      (idx + 1)

/-- Embedding of the quoted-literal compatibility block of
`src/nodes/Neon/actions/operations/executeQuery.operation.ts` lines 117-126:
executed only when `queryParameter` is falsy (the `Query Parameters` option
defaults to the empty string, so an unsupplied parameter source reaches this
block as `""`). The placeholder numbering starts at `values.length + 1`. -/
def applyQuotedLiteralRewrite (queryParameter : String) (query : String)
    (values : List String) : String × List String :=
  if queryParameter = "" then
    let literals := scanLits query.data
    rewriteLoop literals query values (values.length + 1)
  else (query, values)

/-- A filter condition the `buildWhereClause` loop keeps: a non-empty column and an
operator that is one of the nine recognized ones. -/
def keptCond (c : FilterCondition) : Prop :=
  ¬(c.column = "") ∧ ((opToken c.condition).isSome = true ∨ isNullCheckOp c.condition = true)

/-- A filter condition the `buildWhereClause` loop silently skips: an empty
(or absent) column, or an operator matching none of the nine recognized ones. -/
def skippedCond (c : FilterCondition) : Prop :=
  c.column = "" ∨ (opToken c.condition = none ∧ isNullCheckOp c.condition = false)

instance (c : FilterCondition) : Decidable (keptCond c) := by
  unfold keptCond
  infer_instance

instance (c : FilterCondition) : Decidable (skippedCond c) := by
  unfold skippedCond
  infer_instance

/-- `needle` occurs verbatim (as a contiguous substring) in `hay`: the literal
splicing the injection-safety invariant forbids for identifiers. -/
def strInfix (needle hay : String) : Prop :=
  needle.data <:+: hay.data

instance (n h : String) : Decidable (strInfix n h) :=
  inferInstanceAs (Decidable (n.data <:+: h.data))

/-- The key of an item entry has a matching column in the schema lookup built by
`checkItemAgainstSchema`. -/
def keyKnown (columnsInfo : List ColumnInfo) (k : String) : Bool :=
  (schemaLookup columnsInfo k).isSome

/-- The item entry trips the not-null check of `checkItemAgainstSchema`: its value
is strictly null while its matching column is not nullable. -/
def pairNullViolation (columnsInfo : List ColumnInfo) (kv : String × Val) : Bool :=
  match schemaLookup columnsInfo kv.1 with
  | some c => decide (kv.2 = Val.null) && !(c.is_nullable == "YES")
  | none => false

/-! Helper lemmas about string concatenation, substrings and the clause builders. -/

theorem string_data_append (a b : String) : (a ++ b).data = a.data ++ b.data := by
  cases a; cases b; rfl

theorem strInfix_append_left (n a b : String) (h : strInfix n a) : strInfix n (a ++ b) := by
  unfold strInfix at h ⊢
  rw [string_data_append]
  exact h.trans ⟨[], b.data, by simp⟩

theorem strInfix_append_right (n a b : String) (h : strInfix n b) : strInfix n (a ++ b) := by
  unfold strInfix at h ⊢
  rw [string_data_append]
  exact h.trans ⟨a.data, [], by simp⟩

theorem string_prefix_append_right (a b c : String) (h : a.data <+: b.data) :
    a.data <+: (b ++ c).data := by
  rw [string_data_append]
  exact h.trans (List.prefix_append _ _)

theorem string_append_ne_empty_left (a b : String) (h : ¬(a = "")) : ¬(a ++ b = "") := by
  intro hab
  apply h
  have hd := congrArg String.data hab
  rw [string_data_append] at hd
  have ha : a.data = [] := (List.append_eq_nil.mp hd).1
  have hdata : a.data = ("" : String).data := ha
  exact String.ext hdata

theorem joinSep_mem_infix (sep : String) :
    ∀ (ps : List String) (p : String), p ∈ ps → strInfix p (joinSep sep ps)
  | [], p, hp => absurd hp (List.not_mem_nil p)
  | [x], p, hp => by
      have hx : p = x := by simpa using hp
      subst hx
      exact List.infix_refl _
  | x :: y :: rest, p, hp => by
      rcases List.mem_cons.mp hp with h | h
      · subst h
        show strInfix p (p ++ sep ++ joinSep sep (y :: rest))
        exact strInfix_append_left _ _ _ (strInfix_append_left _ _ _ (List.infix_refl _))
      · have ih := joinSep_mem_infix sep (y :: rest) p h
        show strInfix p (x ++ sep ++ joinSep sep (y :: rest))
        exact strInfix_append_right _ _ _ ih

theorem whereLoop_kept (cs : List FilterCondition) :
    ∀ i, (∀ c ∈ cs, keptCond c) →
      (whereLoop cs i).1.length = cs.length ∧
      (whereLoop cs i).2 =
        (cs.filter (fun c => (opToken c.condition).isSome)).map FilterCondition.value := by
  induction cs with
  | nil => intro i _; simp [whereLoop]
  | cons c rest ih =>
    intro i h
    have hc := h c (List.mem_cons_self c rest)
    have hrest : ∀ d ∈ rest, keptCond d := fun d hd => h d (List.mem_cons_of_mem c hd)
    obtain ⟨hcol, hop⟩ := hc
    cases hopt : opToken c.condition with
    | some op =>
      have hr := ih (i + 1) hrest
      simp [whereLoop, hcol, hopt, List.filter_cons, hr.1, hr.2]
    | none =>
      have hnull : isNullCheckOp c.condition = true := by
        rcases hop with h1 | h1
        · rw [hopt] at h1; simp at h1
        · exact h1
      have hr := ih i hrest
      simp [whereLoop, hcol, hopt, hnull, List.filter_cons, hr.1, hr.2]

theorem whereLoop_column_piece (cs : List FilterCondition) :
    ∀ i c, c ∈ cs → keptCond c →
      ∃ piece ∈ (whereLoop cs i).1, c.column.data <+: piece.data := by
  induction cs with
  | nil => intro i c hc; cases hc
  | cons d rest ih =>
    intro i c hc hkept
    rcases List.mem_cons.mp hc with rfl | hmem
    · obtain ⟨hcol, hop⟩ := hkept
      cases hopt : opToken c.condition with
      | some op =>
        refine ⟨c.column ++ " " ++ op ++ " $" ++ toString i, ?_, ?_⟩
        · simp [whereLoop, hcol, hopt]
        · exact string_prefix_append_right _ _ _
            (string_prefix_append_right _ _ _
              (string_prefix_append_right _ _ _
                (string_prefix_append_right _ _ _ (List.prefix_refl _))))
      | none =>
        have hnull : isNullCheckOp c.condition = true := by
          rcases hop with h1 | h1
          · rw [hopt] at h1; simp at h1
          · exact h1
        refine ⟨c.column ++ " " ++ c.condition, ?_, ?_⟩
        · simp [whereLoop, hcol, hopt, hnull]
        · exact string_prefix_append_right _ _ _
            (string_prefix_append_right _ _ _ (List.prefix_refl _))
    · cases hdcol : decide (d.column = "") with
      | true =>
        have hd : d.column = "" := of_decide_eq_true hdcol
        have := ih i c hmem hkept
        simpa [whereLoop, hd] using this
      | false =>
        have hd : ¬(d.column = "") := of_decide_eq_false hdcol
        cases hopt : opToken d.condition with
        | some op =>
          obtain ⟨piece, hpmem, hpre⟩ := ih (i + 1) c hmem hkept
          refine ⟨piece, ?_, hpre⟩
          simp [whereLoop, hd, hopt]
          exact Or.inr hpmem
        | none =>
          cases hnull : isNullCheckOp d.condition with
          | true =>
            obtain ⟨piece, hpmem, hpre⟩ := ih i c hmem hkept
            refine ⟨piece, ?_, hpre⟩
            simp [whereLoop, hd, hopt, hnull]
            exact Or.inr hpmem
          | false =>
            have := ih i c hmem hkept
            simpa [whereLoop, hd, hopt, hnull] using this

theorem buildWhereClause_eq (cs : List FilterCondition) (comb : Option String)
    (s t : String) (hne : ¬(cs = [])) (hcond : ¬((whereLoop cs 1).1 = [])) :
    buildWhereClause (some ⟨some cs, comb⟩) s t =
      ⟨"WHERE " ++ joinSep (" " ++ combineOperatorOf comb ++ " ") (whereLoop cs 1).1,
        (whereLoop cs 1).2⟩ := by
  simp [buildWhereClause, hne, hcond]

theorem nullCheck_opToken_none (s : String) (h : isNullCheckOp s = true) :
    opToken s = none := by
  have hs : s = "IS NULL" ∨ s = "IS NOT NULL" := by
    simpa [isNullCheckOp, Bool.or_eq_true, beq_iff_eq] using h
  rcases hs with rfl | rfl <;> rfl

theorem kept_count (cs : List FilterCondition) (h : ∀ c ∈ cs, keptCond c) :
    cs.countP (fun c => (opToken c.condition).isSome)
      + cs.countP (fun c => isNullCheckOp c.condition) = cs.length := by
  induction cs with
  | nil => simp
  | cons c rest ih =>
    have hc := h c (List.mem_cons_self c rest)
    have hrest : ∀ d ∈ rest, keptCond d := fun d hd => h d (List.mem_cons_of_mem c hd)
    rcases hc.2 with h1 | h1
    · have h2 : isNullCheckOp c.condition = false := by
        cases hn : isNullCheckOp c.condition
        · rfl
        · rw [nullCheck_opToken_none _ hn] at h1; simp at h1
      have := ih hrest
      simp [List.countP_cons, h1, h2]
      omega
    · have h2 : (opToken c.condition).isSome = false := by
        rw [nullCheck_opToken_none _ h1]; rfl
      have := ih hrest
      simp [List.countP_cons, h1, h2]
      omega

theorem sortLoop_map (rules : List SortRule) (h : ∀ r ∈ rules, ¬(r.column = "")) :
    sortLoop rules =
      rules.map (fun r =>
        r.column ++ " " ++ (if r.direction = "" then "ASC" else r.direction)) := by
  induction rules with
  | nil => rfl
  | cons r rest ih =>
    have hr := h r (List.mem_cons_self r rest)
    simp [sortLoop, hr, ih (fun d hd => h d (List.mem_cons_of_mem r hd))]

theorem whereLoop_skip (c : FilterCondition) (hc : skippedCond c) :
    ∀ (pre post : List FilterCondition) (i : Nat),
      whereLoop (pre ++ c :: post) i = whereLoop (pre ++ post) i := by
  intro pre
  induction pre with
  | nil =>
    intro post i
    rcases hc with h1 | ⟨h2, h3⟩
    · simp [whereLoop, h1]
    · by_cases hcol : c.column = ""
      · simp [whereLoop, hcol]
      · simp [whereLoop, hcol, h2, h3]
  | cons d rest ih =>
    intro post i
    by_cases hd : d.column = ""
    · simp [whereLoop, hd, ih]
    · cases hopt : opToken d.condition with
      | some op => simp [whereLoop, hd, hopt, ih]
      | none =>
        cases hnull : isNullCheckOp d.condition with
        | true => simp [whereLoop, hd, hopt, hnull, ih]
        | false => simp [whereLoop, hd, hopt, hnull, ih]

theorem whereLoop_all_skipped (cs : List FilterCondition)
    (h : ∀ c ∈ cs, skippedCond c) : ∀ i, whereLoop cs i = ([], []) := by
  induction cs with
  | nil => intro i; rfl
  | cons c rest ih =>
    intro i
    have hc := h c (List.mem_cons_self c rest)
    have hrest : ∀ d ∈ rest, skippedCond d := fun d hd => h d (List.mem_cons_of_mem c hd)
    rcases hc with h1 | ⟨h2, h3⟩
    · simp [whereLoop, h1, ih hrest]
    · by_cases hcol : c.column = ""
      · simp [whereLoop, hcol, ih hrest]
      · simp [whereLoop, hcol, h2, h3, ih hrest]

theorem rewriteLoop_values (lits : List (List Char)) :
    ∀ (q : String) (vs : List String) (idx : Nat),
      (rewriteLoop lits q vs idx).2 = vs ++ lits.map stripQuotes := by
  induction lits with
  | nil => intro q vs idx; simp [rewriteLoop]
  | cons l rest ih =>
    intro q vs idx
    simp [rewriteLoop, ih]

theorem checkKeys_none (columnsInfo : List ColumnInfo) (index : Nat) :
    ∀ item : List (String × Val),
      (∀ kv ∈ item, keyKnown columnsInfo kv.1 = true ∧
        pairNullViolation columnsInfo kv = false) →
      checkKeys columnsInfo index item = none := by
  intro item
  induction item with
  | nil => intro _; rfl
  | cons kv rest ih =>
    intro h
    obtain ⟨hknown, hviol⟩ := h kv (List.mem_cons_self kv rest)
    have hrest := fun d hd => h d (List.mem_cons_of_mem kv hd)
    cases hl : schemaLookup columnsInfo kv.1 with
    | none => rw [keyKnown, hl] at hknown; simp at hknown
    | some c =>
      have hcond : ¬(kv.2 = Val.null ∧ ¬(c.is_nullable = "YES")) := by
        rw [pairNullViolation, hl] at hviol
        intro ⟨hv1, hv2⟩
        simp [hv1, hv2] at hviol
      cases kv with
      | mk k v => simp only [checkKeys, hl, if_neg hcond]; exact ih hrest

theorem checkKeys_unknown (columnsInfo : List ColumnInfo) (index : Nat) :
    ∀ item : List (String × Val),
      (∃ kv ∈ item, keyKnown columnsInfo kv.1 = false) →
      (∀ kv ∈ item, pairNullViolation columnsInfo kv = false) →
      ∃ k, keyKnown columnsInfo k = false ∧
        checkKeys columnsInfo index item = some (CheckError.unknownColumn k index) := by
  intro item
  induction item with
  | nil => intro h _; obtain ⟨kv, hmem, _⟩ := h; cases hmem
  | cons kv rest ih =>
    intro hex hall
    cases hl : schemaLookup columnsInfo kv.1 with
    | none =>
      refine ⟨kv.1, ?_, ?_⟩
      · rw [keyKnown, hl]; rfl
      · cases kv with
        | mk k v => simp only [checkKeys, hl]
    | some c =>
      have hviol := hall kv (List.mem_cons_self kv rest)
      have hcond : ¬(kv.2 = Val.null ∧ ¬(c.is_nullable = "YES")) := by
        rw [pairNullViolation, hl] at hviol
        intro ⟨hv1, hv2⟩
        simp [hv1, hv2] at hviol
      have hex2 : ∃ d ∈ rest, keyKnown columnsInfo d.1 = false := by
        obtain ⟨d, hdmem, hdk⟩ := hex
        rcases List.mem_cons.mp hdmem with rfl | hdmem2
        · rw [keyKnown, hl] at hdk; simp at hdk
        · exact ⟨d, hdmem2, hdk⟩
      obtain ⟨k, hk1, hk2⟩ :=
        ih hex2 (fun d hd => hall d (List.mem_cons_of_mem kv hd))
      refine ⟨k, hk1, ?_⟩
      cases kv with
      | mk kk v => simp only [checkKeys, hl, if_neg hcond]; exact hk2

theorem checkKeys_nullViolation (columnsInfo : List ColumnInfo) (index : Nat) :
    ∀ item : List (String × Val),
      (∀ kv ∈ item, keyKnown columnsInfo kv.1 = true) →
      (∃ kv ∈ item, pairNullViolation columnsInfo kv = true) →
      ∃ k, checkKeys columnsInfo index item = some (CheckError.notNullable k index) := by
  intro item
  induction item with
  | nil => intro _ h; obtain ⟨kv, hmem, _⟩ := h; cases hmem
  | cons kv rest ih =>
    intro hall hex
    have hknown := hall kv (List.mem_cons_self kv rest)
    cases hl : schemaLookup columnsInfo kv.1 with
    | none => rw [keyKnown, hl] at hknown; simp at hknown
    | some c =>
      by_cases hcond : kv.2 = Val.null ∧ ¬(c.is_nullable = "YES")
      · refine ⟨kv.1, ?_⟩
        cases kv with
        | mk k v => simp only [checkKeys, hl, if_pos hcond]
      · have hviolhead : pairNullViolation columnsInfo kv = false := by
          rw [pairNullViolation, hl]
          by_cases h1 : kv.2 = Val.null
          · have h2 : c.is_nullable = "YES" := by
              by_contra h2
              exact hcond ⟨h1, h2⟩
            simp [h2]
          · simp [h1]
        have hex2 : ∃ d ∈ rest, pairNullViolation columnsInfo d = true := by
          obtain ⟨d, hdmem, hdk⟩ := hex
          rcases List.mem_cons.mp hdmem with rfl | hdmem2
          · rw [hviolhead] at hdk; simp at hdk
          · exact ⟨d, hdmem2, hdk⟩
        obtain ⟨k, hk⟩ :=
          ih (fun d hd => hall d (List.mem_cons_of_mem kv hd)) hex2
        refine ⟨k, ?_⟩
        cases kv with
        | mk kk v => simp only [checkKeys, hl, if_neg hcond]; exact hk

theorem checkKeys_isSome (columnsInfo : List ColumnInfo) (index : Nat) :
    ∀ item : List (String × Val),
      (∃ kv ∈ item, keyKnown columnsInfo kv.1 = false ∨
        pairNullViolation columnsInfo kv = true) →
      (checkKeys columnsInfo index item).isSome = true := by
  intro item
  induction item with
  | nil => intro h; obtain ⟨kv, hmem, _⟩ := h; cases hmem
  | cons kv rest ih =>
    intro hex
    cases hl : schemaLookup columnsInfo kv.1 with
    | none =>
      cases kv with
      | mk k v => simp only [checkKeys, hl, Option.isSome_some]
    | some c =>
      by_cases hcond : kv.2 = Val.null ∧ ¬(c.is_nullable = "YES")
      · cases kv with
        | mk k v => simp only [checkKeys, hl, if_pos hcond, Option.isSome_some]
      · have hex2 : ∃ d ∈ rest, keyKnown columnsInfo d.1 = false ∨
            pairNullViolation columnsInfo d = true := by
          obtain ⟨d, hdmem, hdk⟩ := hex
          rcases List.mem_cons.mp hdmem with rfl | hdmem2
          · exfalso
            rcases hdk with h1 | h1
            · rw [keyKnown, hl] at h1; simp at h1
            · rw [pairNullViolation, hl] at h1
              rcases not_and_or.mp hcond with h2 | h2
              · simp [h2] at h1
              · have h3 : c.is_nullable = "YES" := not_not.mp h2
                simp [h3] at h1
          · exact ⟨d, hdmem2, hdk⟩
        have := ih hex2
        cases kv with
        | mk kk v => simpa only [checkKeys, hl, if_neg hcond] using this

theorem runBatchGo_independent (stmts : List Stmt) :
    ∀ db i, ∃ os dbf,
      runBatchGo "independently" stmts db i = Except.ok (os, dbf) ∧
      os.length = stmts.length := by
  induction stmts with
  | nil => intro db i; exact ⟨[], db, rfl, rfl⟩
  | cons s rest ih =>
    intro db i
    cases hrun : s.run db with
    | ok p =>
      obtain ⟨os, dbf, heq, hlen⟩ := ih p.1 (i + 1)
      refine ⟨p.2 :: os, dbf, ?_, by simp [hlen]⟩
      simp [runBatchGo, dbAny, hrun, heq]
    | error e =>
      obtain ⟨os, dbf, heq, hlen⟩ := ih db (i + 1)
      refine ⟨[] :: os, dbf, ?_, by simp [hlen]⟩
      simp [runBatchGo, dbAny, hrun, heq, shouldContinueOnFail]

/-! Claim theorems. -/

/-- C2: in `transaction` execution mode the batch runner does not open one
transaction for the whole batch — it wraps each statement in its own `db.tx`.
Running the batch [insert row 1, failing statement, insert row 3] from an empty
database therefore aborts at index 1 with statement 1's row already committed and
visible (final state `[1]`, not `[]`), and statement 3 never executes. -/
theorem c2_transaction_mode_partial_commit :
    runBatch ("transaction") [stmtInsert 1, stmtFail ("boom"), stmtInsert 3] []
      = Except.error (1, "boom", [1]) := rfl

/-- C3 (counterexample): the single filter `{column: age, operator: >, value: abc}`
does not fail validation — `buildWhereClause` has no numeric-coercion check at all
and happily builds a non-empty clause carrying the non-numeric value as a value
parameter. -/
theorem c3_counterexample :
    buildWhereClause (some ⟨some [⟨"age", ">", Val.str ("abc")⟩], none⟩) "public" "users"
      = ⟨"WHERE age > $1", [Val.str ("abc")]⟩ ∧
    ¬((buildWhereClause (some ⟨some [⟨"age", ">", Val.str ("abc")⟩], none⟩)
        "public" "users").clause = "") := by
  decide

/-- C3 (amended): numeric-operator conditions are not validated: for any value
whatsoever (numeric-coercible or not) and any non-empty column, the builder emits
the condition with the raw value as an ordinary value parameter and never fails. -/
theorem c3_amended (col : String) (v : Val) (op s t : String)
    (hcol : ¬(col = ""))
    (hop : op = ">" ∨ op = "<" ∨ op = ">=" ∨ op = "<=") :
    buildWhereClause (some ⟨some [⟨col, op, v⟩], none⟩) s t
      = ⟨"WHERE " ++ (col ++ " " ++ op ++ " $" ++ toString 1), [v]⟩ := by
  have hopt : opToken op = some op := by
    rcases hop with rfl | rfl | rfl | rfl <;> rfl
  simp [buildWhereClause, whereLoop, hcol, hopt, combineOperatorOf, joinSep]

/-- C3 (witness): the amended statement instantiated at the spec's example filter
`{column: age, operator: >, value: abc}`. -/
theorem c3_amended_witness :
    buildWhereClause (some ⟨some [⟨"age", ">", Val.str ("abc")⟩], none⟩) "s" "t"
      = ⟨"WHERE " ++ ("age" ++ " " ++ ">" ++ " $" ++ toString 1), [Val.str ("abc")]⟩ :=
  c3_amended "age" (Val.str ("abc")) ">" "s" "t" (by decide) (Or.inl rfl)

/-- C4 (counterexample): the empty-assignment INSERT against `public.events` does
build exactly the DEFAULT VALUES text, but its parameter list has three entries,
not the claimed two: `values.push(checkItemAgainstSchema(...))` appends the
(empty) item object after the schema and table. -/
theorem c4_counterexample :
    buildInsertQuery "public" "events" [] [] false 0
      = Except.ok (("INSERT INTO $1:name.$2:name DEFAULT VALUES RETURNING *"),
          [InsertParam.str ("public"), InsertParam.str ("events"), InsertParam.obj []]) ∧
    ¬([InsertParam.str ("public"), InsertParam.str ("events"),
        InsertParam.obj ([] : List (String × Val))].length = 2) := by
  exact ⟨rfl, by decide⟩

/-- C4 (amended): for every INSERT whose assignment set is empty, the built text is
exactly `INSERT INTO $1:name.$2:name DEFAULT VALUES RETURNING *` and the ordered
parameter list is the two identifiers (schema, table) followed by one value entry
holding the validated empty item — which the text never references. -/
theorem c4_amended (schema table : String) (tableSchema : List ColumnInfo)
    (skipOnConflict : Bool) (index : Nat) :
    buildInsertQuery schema table [] tableSchema skipOnConflict index
      = Except.ok (("INSERT INTO $1:name.$2:name DEFAULT VALUES RETURNING *"),
          [InsertParam.str schema, InsertParam.str table, InsertParam.obj []]) := by
  have hchk : checkItemAgainstSchema [] tableSchema index = Except.ok [] := by
    by_cases h : tableSchema = []
    · simp [checkItemAgainstSchema, h]
    · simp [checkItemAgainstSchema, h, checkKeys]
  simp [buildInsertQuery, hchk]

/-- C5 (counterexample): a single kept equality filter emits one parameter in
total (the value), not the claimed `2 x 1 - 0 = 2`: no identifier parameter is
ever emitted by `buildWhereClause`. -/
theorem c5_counterexample :
    buildWhereClause (some ⟨some [⟨"age", "equal", Val.num 5⟩], none⟩) "s" "t"
      = ⟨"WHERE age = $1", [Val.num 5]⟩ ∧
    ¬((buildWhereClause (some ⟨some [⟨"age", "equal", Val.num 5⟩], none⟩) "s" "t").values.length
        = 2 * 1 - 0) := by
  decide

/-- C5 (amended): for every non-empty list of kept filter conditions, the emitted
parameters are value parameters only, numbering `count - count(null-check
operators)` (identifier parameters: zero), and the clause text joins exactly
`count` condition pieces with the configured combinator — hence `count - 1`
combinator occurrences and none trailing. -/
theorem c5_amended (cs : List FilterCondition) (comb s t : String)
    (hne : ¬(cs = [])) (hkept : ∀ c ∈ cs, keptCond c) (hcomb : ¬(comb = "")) :
    ∃ pieces : List String,
      pieces.length = cs.length ∧
      (buildWhereClause (some ⟨some cs, some comb⟩) s t).clause
        = "WHERE " ++ joinSep (" " ++ comb ++ " ") pieces ∧
      (buildWhereClause (some ⟨some cs, some comb⟩) s t).values.length
        + cs.countP (fun c => isNullCheckOp c.condition) = cs.length := by
  have h1 := (whereLoop_kept cs 1 hkept).1
  have h2 := (whereLoop_kept cs 1 hkept).2
  have hcond : ¬((whereLoop cs 1).1 = []) := by
    intro h0
    rw [h0] at h1
    exact hne (List.length_eq_zero.mp h1.symm)
  have hw := buildWhereClause_eq cs (some comb) s t hne hcond
  refine ⟨(whereLoop cs 1).1, h1, ?_, ?_⟩
  · rw [hw]
    simp [combineOperatorOf, hcomb]
  · rw [hw]
    have hlen : (whereLoop cs 1).2.length
        = cs.countP (fun c => (opToken c.condition).isSome) := by
      rw [h2]
      simp [List.countP_eq_length_filter]
    have := kept_count cs hkept
    simp only [hlen]
    omega

/-- C5 (witness): the amended statement instantiated at a two-condition filter
(one equality, one null check) with combinator `OR`. -/
theorem c5_amended_witness :
    ∃ pieces : List String,
      pieces.length
        = ([⟨"age", "equal", Val.num 5⟩, ⟨"b", "IS NULL", Val.null⟩] :
            List FilterCondition).length ∧
      (buildWhereClause
          (some ⟨some [⟨"age", "equal", Val.num 5⟩, ⟨"b", "IS NULL", Val.null⟩],
            some ("OR")⟩) "s" "t").clause
        = "WHERE " ++ joinSep (" " ++ "OR" ++ " ") pieces ∧
      (buildWhereClause
          (some ⟨some [⟨"age", "equal", Val.num 5⟩, ⟨"b", "IS NULL", Val.null⟩],
            some ("OR")⟩) "s" "t").values.length
        + List.countP (fun c : FilterCondition => isNullCheckOp c.condition)
            [⟨"age", "equal", Val.num 5⟩, ⟨"b", "IS NULL", Val.null⟩]
        = ([⟨"age", "equal", Val.num 5⟩, ⟨"b", "IS NULL", Val.null⟩] :
            List FilterCondition).length :=
  c5_amended [⟨"age", "equal", Val.num 5⟩, ⟨"b", "IS NULL", Val.null⟩] "OR" "s" "t"
    (by decide) (by decide) (by decide)

/-- C6 (counterexample): an unrecognized direction value is not defaulted to ASC —
`direction || 'ASC'` only replaces a falsy (empty/absent) direction, so `FOO` is
emitted verbatim. -/
theorem c6_counterexample :
    buildSortClause (some ⟨some [⟨"a", "FOO"⟩]⟩) = "ORDER BY a FOO" ∧
    ¬(buildSortClause (some ⟨some [⟨"a", "FOO"⟩]⟩) = "ORDER BY a ASC") := by
  decide

/-- C6 (amended): the ORDER BY clause lists the rules in exactly the input order,
comma-joined, each rule contributing its column followed by its direction, where
only an absent or empty direction defaults to ASC; any other (even unrecognized)
direction string is emitted as-is. -/
theorem c6_amended (rules : List SortRule) (hne : ¬(rules = []))
    (hcols : ∀ r ∈ rules, ¬(r.column = "")) :
    buildSortClause (some ⟨some rules⟩)
      = "ORDER BY " ++ joinSep (", ")
          (rules.map (fun r =>
            r.column ++ " " ++ (if r.direction = "" then "ASC" else r.direction))) := by
  have hmap := sortLoop_map rules hcols
  have hne2 : ¬(sortLoop rules = []) := by
    rw [hmap]
    intro h
    exact hne (List.map_eq_nil_iff.mp h)
  simp [buildSortClause, hne, hne2, hmap]

/-- C6 (witness): the amended statement instantiated at a two-rule sort list with
an unrecognized direction and an empty one. -/
theorem c6_amended_witness :
    buildSortClause (some ⟨some [⟨"a", "FOO"⟩, ⟨"b", ""⟩]⟩)
      = "ORDER BY " ++ joinSep (", ")
          (([⟨"a", "FOO"⟩, ⟨"b", ""⟩] : List SortRule).map (fun r =>
            r.column ++ " " ++ (if r.direction = "" then "ASC" else r.direction))) :=
  c6_amended [⟨"a", "FOO"⟩, ⟨"b", ""⟩] (by decide) (by decide)

/-- C7: the schema validator returns the item unchanged when the schema is empty;
with a non-empty schema it returns the item when every key is known and no
not-null rule is tripped, fails with the unknown-column error (for an unknown
key) when some key is unknown and no entry trips the null rule, fails with the
not-nullable error when every key is known and some entry has a null value for a
non-nullable column, and fails (with one of the two errors) whenever either
offense is present. -/
theorem c7_check_item_against_schema :
    (∀ (item : List (String × Val)) (index : Nat),
       checkItemAgainstSchema item [] index = Except.ok item) ∧
    (∀ (item : List (String × Val)) (columnsInfo : List ColumnInfo) (index : Nat),
       ¬(columnsInfo = []) →
       (∀ kv ∈ item, keyKnown columnsInfo kv.1 = true ∧
          pairNullViolation columnsInfo kv = false) →
       checkItemAgainstSchema item columnsInfo index = Except.ok item) ∧
    (∀ (item : List (String × Val)) (columnsInfo : List ColumnInfo) (index : Nat),
       ¬(columnsInfo = []) →
       (∃ kv ∈ item, keyKnown columnsInfo kv.1 = false) →
       (∀ kv ∈ item, pairNullViolation columnsInfo kv = false) →
       ∃ k, keyKnown columnsInfo k = false ∧
         checkItemAgainstSchema item columnsInfo index
           = Except.error (CheckError.unknownColumn k index)) ∧
    (∀ (item : List (String × Val)) (columnsInfo : List ColumnInfo) (index : Nat),
       ¬(columnsInfo = []) →
       (∀ kv ∈ item, keyKnown columnsInfo kv.1 = true) →
       (∃ kv ∈ item, pairNullViolation columnsInfo kv = true) →
       ∃ k, checkItemAgainstSchema item columnsInfo index
           = Except.error (CheckError.notNullable k index)) ∧
    (∀ (item : List (String × Val)) (columnsInfo : List ColumnInfo) (index : Nat),
       ¬(columnsInfo = []) →
       (∃ kv ∈ item, keyKnown columnsInfo kv.1 = false ∨
          pairNullViolation columnsInfo kv = true) →
       ∃ e, checkItemAgainstSchema item columnsInfo index = Except.error e) := by
  refine ⟨?_, ?_, ?_, ?_, ?_⟩
  · intro item index
    simp [checkItemAgainstSchema]
  · intro item cols index hcols h
    simp [checkItemAgainstSchema, hcols, checkKeys_none cols index item h]
  · intro item cols index hcols hex hall
    obtain ⟨k, hk1, hk2⟩ := checkKeys_unknown cols index item hex hall
    exact ⟨k, hk1, by simp [checkItemAgainstSchema, hcols, hk2]⟩
  · intro item cols index hcols hall hex
    obtain ⟨k, hk⟩ := checkKeys_nullViolation cols index item hall hex
    exact ⟨k, by simp [checkItemAgainstSchema, hcols, hk]⟩
  · intro item cols index hcols hex
    have hsome := checkKeys_isSome cols index item hex
    cases hck : checkKeys cols index item with
    | none => rw [hck] at hsome; simp at hsome
    | some e => exact ⟨e, by simp [checkItemAgainstSchema, hcols, hck]⟩

/-- C7 (witness): each branch of the validator theorem instantiated at concrete
one-entry items against the one-column schema `a integer NOT NULL`. -/
theorem c7_check_item_against_schema_witness :
    checkItemAgainstSchema [("a", Val.num 1)] [] 0 = Except.ok [("a", Val.num 1)] ∧
    checkItemAgainstSchema [("a", Val.num 1)] [⟨"a", "integer", "NO"⟩] 0
      = Except.ok [("a", Val.num 1)] ∧
    (∃ k, keyKnown [⟨"a", "integer", "NO"⟩] k = false ∧
       checkItemAgainstSchema [("z", Val.num 1)] [⟨"a", "integer", "NO"⟩] 0
         = Except.error (CheckError.unknownColumn k 0)) ∧
    (∃ k, checkItemAgainstSchema [("a", Val.null)] [⟨"a", "integer", "NO"⟩] 0
         = Except.error (CheckError.notNullable k 0)) ∧
    (∃ e, checkItemAgainstSchema [("z", Val.null)] [⟨"a", "integer", "NO"⟩] 0
         = Except.error e) :=
  ⟨c7_check_item_against_schema.1 [("a", Val.num 1)] 0,
   c7_check_item_against_schema.2.1 [("a", Val.num 1)] [⟨"a", "integer", "NO"⟩] 0
     (by decide) (by decide),
   c7_check_item_against_schema.2.2.1 [("z", Val.num 1)] [⟨"a", "integer", "NO"⟩] 0
     (by decide) ⟨("z", Val.num 1), by decide, by decide⟩ (by decide),
   c7_check_item_against_schema.2.2.2.1 [("a", Val.null)] [⟨"a", "integer", "NO"⟩] 0
     (by decide) (by decide) ⟨("a", Val.null), by decide, by decide⟩,
   c7_check_item_against_schema.2.2.2.2 [("z", Val.null)] [⟨"a", "integer", "NO"⟩] 0
     (by decide) ⟨("z", Val.null), by decide, Or.inl (by decide)⟩⟩

/-- C8: in `independently` execution mode the batch always completes with one
outcome per statement in input order; concretely, for the batch
[insert row 1, failing statement, insert row 3] the outcomes are
`[[1], [], [3]]` — an empty outcome at position 2 — and the final database state
`[1, 3]` shows that statement 3 still executed after statement 2 failed. -/
theorem c8_independent_mode :
    (∀ (stmts : List Stmt) (db : List Nat), ∃ outcomes dbFinal,
       runBatch ("independently") stmts db = Except.ok (outcomes, dbFinal) ∧
       outcomes.length = stmts.length) ∧
    runBatch ("independently") [stmtInsert 1, stmtFail ("boom"), stmtInsert 3] []
      = Except.ok ([[1], [], [3]], [1, 3]) := by
  constructor
  · intro stmts db
    exact runBatchGo_independent stmts db 0
  · rfl

/-- C9: the quoted-placeholder compatibility rewrite runs exactly when the query
parameter source is the empty string (the option's default, i.e. not supplied):
with a parameter source supplied, query and values pass through untouched; when
it is absent, each matched quoted token contributes one additional trailing
parameter equal to the token with its quotes stripped, and in the statement text
each token is replaced by a fresh placeholder continuing the numbering after the
existing values (shown concretely for two tokens after one existing value). -/
theorem c9_quoted_placeholder_rewrite :
    (∀ (queryParameter query : String) (values : List String),
       ¬(queryParameter = "") →
       applyQuotedLiteralRewrite queryParameter query values = (query, values)) ∧
    (∀ (query : String) (values : List String),
       (applyQuotedLiteralRewrite "" query values).2
         = values ++ (scanLits query.data).map stripQuotes) ∧
    applyQuotedLiteralRewrite ""
        ("SELECT x FROM t WHERE a = \x27$7\x27 AND b = \x27$2\x27") ["v1"]
      = (("SELECT x FROM t WHERE a = $2 AND b = $3"), ["v1", "$7", "$2"]) := by
  refine ⟨?_, ?_, by decide⟩
  · intro qp q vs h
    simp [applyQuotedLiteralRewrite, h]
  · intro q vs
    simp [applyQuotedLiteralRewrite, rewriteLoop_values]

/-- C9 (witness): with a supplied parameter source (`1,2`) the quoted token in the
statement is left untouched and no extra parameter is appended. -/
theorem c9_quoted_placeholder_rewrite_witness :
    applyQuotedLiteralRewrite ("1,2") ("SELECT \x27$1\x27") []
      = (("SELECT \x27$1\x27"), []) :=
  c9_quoted_placeholder_rewrite.1 ("1,2") ("SELECT \x27$1\x27") [] (by decide)

/-- C10: a filter condition with an empty (or absent) column, or an operator that
is none of the nine recognized ones, is silently skipped: deleting it from the
filter list leaves the built clause and value list unchanged, no error is ever
raised, and when the filter parameter is absent, its values list absent or empty,
or every condition skipped, the builder returns the empty clause with the empty
value list. -/
theorem c10_skipped_conditions :
    (∀ (s t : String), buildWhereClause none s t = ⟨"", []⟩) ∧
    (∀ (comb : Option String) (s t : String),
       buildWhereClause (some ⟨none, comb⟩) s t = ⟨"", []⟩ ∧
       buildWhereClause (some ⟨some [], comb⟩) s t = ⟨"", []⟩) ∧
    (∀ (pre post : List FilterCondition) (c : FilterCondition)
       (comb : Option String) (s t : String),
       skippedCond c →
       buildWhereClause (some ⟨some (pre ++ c :: post), comb⟩) s t
         = buildWhereClause (some ⟨some (pre ++ post), comb⟩) s t) ∧
    (∀ (cs : List FilterCondition) (comb : Option String) (s t : String),
       (∀ c ∈ cs, skippedCond c) →
       buildWhereClause (some ⟨some cs, comb⟩) s t = ⟨"", []⟩) := by
  refine ⟨?_, ?_, ?_, ?_⟩
  · intro s t
    rfl
  · intro comb s t
    exact ⟨rfl, rfl⟩
  · intro pre post c comb s t hc
    have hw := whereLoop_skip c hc pre post 1
    by_cases hpp : pre ++ post = []
    · have h0 : whereLoop (pre ++ post) 1 = ([], []) := by rw [hpp]; rfl
      have h1 : whereLoop (pre ++ c :: post) 1 = ([], []) := by rw [hw, h0]
      have hne : ¬(pre ++ c :: post = []) := by simp
      simp [buildWhereClause, hne, hpp, h1]
    · have hne : ¬(pre ++ c :: post = []) := by simp
      simp [buildWhereClause, hne, hpp, hw]
  · intro cs comb s t h
    by_cases hcs : cs = []
    · simp [buildWhereClause, hcs]
    · have h0 := whereLoop_all_skipped cs h 1
      simp [buildWhereClause, hcs, h0]

/-- C10 (witness): removing a skipped condition (unrecognized operator `BOGUS`)
leaves the result unchanged, and a list whose conditions are all skipped (empty
column, unrecognized operator) yields the empty clause and value list. -/
theorem c10_skipped_conditions_witness :
    buildWhereClause
        (some ⟨some ([⟨"a", "equal", Val.num 1⟩] ++ ⟨"x", "BOGUS", Val.num 2⟩ :: []),
          none⟩) "s" "t"
      = buildWhereClause (some ⟨some ([⟨"a", "equal", Val.num 1⟩] ++ []), none⟩) "s" "t" ∧
    buildWhereClause
        (some ⟨some [⟨"", "equal", Val.num 1⟩, ⟨"x", "BOGUS", Val.num 2⟩], none⟩) "s" "t"
      = ⟨"", []⟩ :=
  ⟨c10_skipped_conditions.2.2.1 [⟨"a", "equal", Val.num 1⟩] []
     ⟨"x", "BOGUS", Val.num 2⟩ none "s" "t" (by decide),
   c10_skipped_conditions.2.2.2 [⟨"", "equal", Val.num 1⟩, ⟨"x", "BOGUS", Val.num 2⟩]
     none "s" "t" (by decide)⟩

/-- C1 (counterexample): the SELECT path splices identifiers into the statement
text as literal strings: for schema `public`, table `users`, one equality filter
on `age` and one sort rule on `name`, the emitted text is
`SELECT * FROM public.users WHERE age = $1 ORDER BY name DESC` — the schema,
table and both column names occur verbatim in the text instead of appearing only
as parameterized identifier placeholders. -/
theorem c1_counterexample :
    (buildSelectQuery "public" "users" []
        (some ⟨some [⟨"age", "equal", Val.num 1⟩], none⟩)
        (some ⟨some [⟨"name", "DESC"⟩]⟩)).1
      = "SELECT * FROM public.users WHERE age = $1 ORDER BY name DESC" ∧
    strInfix ("public.users")
      ((buildSelectQuery "public" "users" []
          (some ⟨some [⟨"age", "equal", Val.num 1⟩], none⟩)
          (some ⟨some [⟨"name", "DESC"⟩]⟩)).1) ∧
    strInfix ("age")
      ((buildSelectQuery "public" "users" []
          (some ⟨some [⟨"age", "equal", Val.num 1⟩], none⟩)
          (some ⟨some [⟨"name", "DESC"⟩]⟩)).1) ∧
    strInfix ("name")
      ((buildSelectQuery "public" "users" []
          (some ⟨some [⟨"age", "equal", Val.num 1⟩], none⟩)
          (some ⟨some [⟨"name", "DESC"⟩]⟩)).1) := by
  decide

/-- C1 (amended): in the `buildWhereClause`/`buildSortClause`/SELECT-assembly
path, the schema, the table and every kept filter column name appear in the
emitted statement text as literal substrings (spliced, not parameterized), and
the ordered parameter list consists solely of the filter condition values — it
contains no identifier entry at all. -/
theorem c1_amended (schema table : String) (cs : List FilterCondition)
    (comb : Option String) (sp : Option SortParams)
    (hne : ¬(cs = [])) (hkept : ∀ c ∈ cs, keptCond c) :
    strInfix schema (buildSelectQuery schema table [] (some ⟨some cs, comb⟩) sp).1 ∧
    strInfix table (buildSelectQuery schema table [] (some ⟨some cs, comb⟩) sp).1 ∧
    (∀ c ∈ cs, strInfix c.column
      (buildSelectQuery schema table [] (some ⟨some cs, comb⟩) sp).1) ∧
    (buildSelectQuery schema table [] (some ⟨some cs, comb⟩) sp).2
      = (cs.filter (fun c => (opToken c.condition).isSome)).map FilterCondition.value := by
  have h1 := (whereLoop_kept cs 1 hkept).1
  have h2 := (whereLoop_kept cs 1 hkept).2
  have hcond : ¬((whereLoop cs 1).1 = []) := by
    intro h0
    rw [h0] at h1
    exact hne (List.length_eq_zero.mp h1.symm)
  have hw := buildWhereClause_eq cs comb schema table hne hcond
  have hclne :
      ¬(("WHERE " ++ joinSep (" " ++ combineOperatorOf comb ++ " ") (whereLoop cs 1).1)
        = "") :=
    string_append_ne_empty_left _ _ (by decide)
  have hbase_schema :
      strInfix schema ("SELECT " ++ "*" ++ " FROM " ++ schema ++ "." ++ table) :=
    strInfix_append_left _ _ _ (strInfix_append_left _ _ _
      (strInfix_append_right _ _ _ (List.infix_refl _)))
  have hbase_table :
      strInfix table ("SELECT " ++ "*" ++ " FROM " ++ schema ++ "." ++ table) :=
    strInfix_append_right _ _ _ (List.infix_refl _)
  have hcol_clause : ∀ c ∈ cs,
      strInfix c.column
        ("WHERE " ++ joinSep (" " ++ combineOperatorOf comb ++ " ") (whereLoop cs 1).1) := by
    intro c hc
    obtain ⟨piece, hmem, hpre⟩ := whereLoop_column_piece cs 1 c hc (hkept c hc)
    have hpj : strInfix piece
        (joinSep (" " ++ combineOperatorOf comb ++ " ") (whereLoop cs 1).1) :=
      joinSep_mem_infix _ _ piece hmem
    exact strInfix_append_right _ _ _ (List.IsInfix.trans hpre.isInfix hpj)
  by_cases hsp : buildSortClause sp = ""
  · have hQ : buildSelectQuery schema table [] (some ⟨some cs, comb⟩) sp
        = ((("SELECT " ++ "*" ++ " FROM " ++ schema ++ "." ++ table) ++ " " ++
            ("WHERE " ++ joinSep (" " ++ combineOperatorOf comb ++ " ") (whereLoop cs 1).1)),
           (whereLoop cs 1).2) := by
      simp only [buildSelectQuery, hw, buildSelectColumns]
      simp [hclne, hsp]
    rw [hQ]
    refine ⟨?_, ?_, ?_, ?_⟩
    · exact strInfix_append_left _ _ _ (strInfix_append_left _ _ _ hbase_schema)
    · exact strInfix_append_left _ _ _ (strInfix_append_left _ _ _ hbase_table)
    · intro c hc
      exact strInfix_append_right _ _ _ (hcol_clause c hc)
    · exact h2
  · have hQ : buildSelectQuery schema table [] (some ⟨some cs, comb⟩) sp
        = (((("SELECT " ++ "*" ++ " FROM " ++ schema ++ "." ++ table) ++ " " ++
             ("WHERE " ++ joinSep (" " ++ combineOperatorOf comb ++ " ") (whereLoop cs 1).1))
            ++ " " ++ buildSortClause sp),
           (whereLoop cs 1).2) := by
      simp only [buildSelectQuery, hw, buildSelectColumns]
      simp [hclne, hsp]
    rw [hQ]
    refine ⟨?_, ?_, ?_, ?_⟩
    · exact strInfix_append_left _ _ _ (strInfix_append_left _ _ _
        (strInfix_append_left _ _ _ (strInfix_append_left _ _ _ hbase_schema)))
    · exact strInfix_append_left _ _ _ (strInfix_append_left _ _ _
        (strInfix_append_left _ _ _ (strInfix_append_left _ _ _ hbase_table)))
    · intro c hc
      exact strInfix_append_left _ _ _ (strInfix_append_left _ _ _
        (strInfix_append_right _ _ _ (hcol_clause c hc)))
    · exact h2

/-- C1 (witness): the amended statement instantiated at schema `public`, table
`users`, one equality filter on `age`, no sort. -/
theorem c1_amended_witness :
    strInfix ("public")
      ((buildSelectQuery "public" "users" []
          (some ⟨some [⟨"age", "equal", Val.num 1⟩], none⟩) none).1) ∧
    strInfix ("users")
      ((buildSelectQuery "public" "users" []
          (some ⟨some [⟨"age", "equal", Val.num 1⟩], none⟩) none).1) ∧
    (∀ c ∈ ([⟨"age", "equal", Val.num 1⟩] : List FilterCondition),
       strInfix c.column
         ((buildSelectQuery "public" "users" []
             (some ⟨some [⟨"age", "equal", Val.num 1⟩], none⟩) none).1)) ∧
    (buildSelectQuery "public" "users" []
        (some ⟨some [⟨"age", "equal", Val.num 1⟩], none⟩) none).2
      = (([⟨"age", "equal", Val.num 1⟩] : List FilterCondition).filter
          (fun c => (opToken c.condition).isSome)).map FilterCondition.value :=
  c1_amended "public" "users" [⟨"age", "equal", Val.num 1⟩] none none
    (by decide) (by decide)
